import Mathlib

/-!
Verification development for the GPU-process discovery tool
(kube-nvidia-get-processes.py) of the kube-utils repository.

The Python program is shallowly embedded: every pure computation of the
script (string parsing, PID correlation, GPU join, table construction) is
translated into an executable Lean function, and the effectful control flow
(remote exec channels, pod lifecycle API calls, the try/finally cleanup) is
embedded by passing the outcomes of the external calls as explicit inputs
and returning `Except Unit` values, where `Except.error ()` marks an
uncaught Python exception or a `sys.exit(1)` call.  Python `int` is `Int`,
`None`-able values are `Option`, and Python dictionaries are association
lists whose lookup returns the most recently inserted binding.
-/

/-! ## Models of Python string primitives used by the script -/

/-- The single-quote character (used by `shlex` lexing). -/
def squote : Char := Char.ofNat 39

/-- Split a character list at every occurrence of a separator character
(the current piece is accumulated reversed).  This mirrors Python
`str.split(sep)` for a one-character separator. -/
def splitCharGo (sep : Char) : List Char → List Char → List String
  | [], cur => [String.mk cur.reverse]
  | c :: rest, cur =>
    if c = sep then String.mk cur.reverse :: splitCharGo sep rest []
    else splitCharGo sep rest (c :: cur)

/-- Model of Python `s.split(sep)` for a one-character separator. -/
def splitChar (sep : Char) (s : String) : List String :=
  splitCharGo sep s.data []

/-- Whether the second character list is an initial segment of the first. -/
def startsL : List Char → List Char → Bool
  | _, [] => true
  | [], _ :: _ => false
  | c :: rest, p :: prest => c = p && startsL rest prest

/-- Model of Python `s.startswith(pat)`. -/
def pyStartsWith (s pat : String) : Bool := startsL s.data pat.data

/-- Whether the second character list occurs inside the first. -/
def containsSub : List Char → List Char → Bool
  | [], pat => pat.isEmpty
  | c :: rest, pat => startsL (c :: rest) pat || containsSub rest pat

/-- Model of Python `str.strip()` with no argument. -/
def pyStrip (s : String) : String :=
  String.mk ((s.data.dropWhile Char.isWhitespace).reverse.dropWhile Char.isWhitespace).reverse

/-- Model of Python slicing `s[n:]`. -/
def strDrop (s : String) (n : Nat) : String := String.mk (s.data.drop n)

/-- Join strings with a one-character separator (model of
`sep.join(pieces)`). -/
def intercalateChar (sep : Char) : List String → String
  | [] => ""
  | [x] => x
  | x :: rest => x ++ String.singleton sep ++ intercalateChar sep rest

/-- Worker of the whitespace split: accumulate the current word
(reversed) and break at whitespace runs. -/
def wordsGo : List Char → List Char → List String
  | [], [] => []
  | [], cur => [String.mk cur.reverse]
  | c :: rest, cur =>
    if c.isWhitespace then
      match cur with
      | [] => wordsGo rest []
      | _ :: _ => String.mk cur.reverse :: wordsGo rest []
    else wordsGo rest (c :: cur)

/-- Model of Python `str.split()` with no argument: split on whitespace
runs, dropping empty pieces. -/
def pySplitWs (s : String) : List String := wordsGo s.data []

/-- Accumulating decimal-digit parser. -/
def digitsValGo : List Char → Nat → Option Nat
  | [], acc => some acc
  | c :: rest, acc =>
    if c.isDigit then digitsValGo rest (acc * 10 + (c.toNat - 48)) else none

/-- Value of a nonempty all-digit character list. -/
def digitsVal : List Char → Option Nat
  | [] => none
  | c :: rest => digitsValGo (c :: rest) 0

/-- Model of Python `int(s)` on decimal strings: surrounding whitespace is
ignored, an optional sign is allowed, and anything else raises `ValueError`
(modelled as `none`). -/
def str2int (s : String) : Option Int :=
  match (pyStrip s).data with
  | '-' :: cs => (digitsVal cs).map (fun n => -(n : Int))
  | '+' :: cs => (digitsVal cs).map (fun n => (n : Int))
  | cs => (digitsVal cs).map (fun n => (n : Int))

/-- Model of Python `str.splitlines(keepends=False)` for newline-separated
text: a trailing newline does not produce a final empty line. -/
def pyLines (s : String) : List String :=
  let parts := splitChar '\n' s
  if parts.getLast? = some "" then parts.dropLast else parts

/-- Model of Python `line.split('\t', maxsplit=1)` unpacked into exactly two
variables: `none` models the `ValueError` raised when the line holds no tab. -/
def splitTab1 (s : String) : Option (String × String) :=
  match splitChar '\t' s with
  | [] => none
  | [_] => none
  | x :: rest => some (x, intercalateChar '\t' rest)

/-- Model of Python `line.split('\t')`. -/
def splitTabs (s : String) : List String := splitChar '\t' s

/-- Model of the Python `in` substring test. -/
def strContains (s pat : String) : Bool := containsSub s.data pat.data

/-- Lexer mode for the `shlex.split` model. -/
inductive ShMode
  | norm
  | sq
  | dq
deriving DecidableEq

/-- Worker of the `shlex.split` model: first argument is the remaining
input, then the quoting mode, the current (reversed) token if a token is in
progress, and the accumulated (reversed) token list. -/
def shlexGo : List Char → ShMode → Option (List Char) → List String → List String
  | [], _, none, acc => acc.reverse
  | [], _, some t, acc => (String.mk t.reverse :: acc).reverse
  | ch :: rest, ShMode.norm, cur, acc =>
    if ch = squote then shlexGo rest ShMode.sq (some (cur.getD [])) acc
    else if ch = '"' then shlexGo rest ShMode.dq (some (cur.getD [])) acc
    else if ch.isWhitespace then
      match cur with
      | none => shlexGo rest ShMode.norm none acc
      | some t => shlexGo rest ShMode.norm none (String.mk t.reverse :: acc)
    else shlexGo rest ShMode.norm (some (ch :: cur.getD [])) acc
  | ch :: rest, ShMode.sq, cur, acc =>
    if ch = squote then shlexGo rest ShMode.norm (some (cur.getD [])) acc
    else shlexGo rest ShMode.sq (some (ch :: cur.getD [])) acc
  | ch :: rest, ShMode.dq, cur, acc =>
    if ch = '"' then shlexGo rest ShMode.norm (some (cur.getD [])) acc
    else shlexGo rest ShMode.dq (some (ch :: cur.getD [])) acc

/-- Model of Python `shlex.split` in POSIX mode, restricted to the
constructs appearing in the script's command lines: whitespace-separated
tokens with single- and double-quoted spans (quotes are stripped). -/
def shlexSplit (s : String) : List String := shlexGo s.data ShMode.norm none []

/-- Python dictionary lookup over an association list in which the most
recent binding of a key stands first. -/
def dictGet (m : List (String × Nat)) (k : String) : Option Nat :=
  match m.find? (fun kv => decide (kv.1 = k)) with
  | some kv => some kv.2
  | none => none

/-! ## Data model (dataclasses of the script) -/

/-- The `GPU_CHECK_PROC_PREFIX` marker constant of the script. -/
def GPU_CHECK_PROC_MARKER : String := "X-GPUPROC"

/-- Dataclass `ContainerProcess` of the script. -/
structure ContainerProcess where
  pid : Int
  cmdline : String
  host_pid : Option Int := none
  gpu_name : Option String := none
  gpu_used_memory : Option String := none
  gpu_pci_address : Option String := none
deriving DecidableEq

/-- Dataclass `GpuContainer` of the script.  In the Python program the
maps `gpu_containers_map` and `pid_ns_to_container_map` hold references to
the very objects stored in the list `gpu_containers`; here the list is the
single owner and the maps hold positions into it. -/
structure GpuContainer where
  pod_name : String
  pod_namespace : String
  container_name : String
  node_name : String
  gpu_usage_list : List (List String)
  processes : List ContainerProcess := []
  host_pid_ns : Option String := none
deriving DecidableEq

/-- One tuple of `host_process_information` (host PID, PID-namespace
identity, container-local PID derived from the second NSpid entry, command
line). -/
structure HostRecord where
  pid : Int
  pid_ns : String
  pid_in_container : Option Int
  cmdline : String
deriving DecidableEq

/-! ## Remote command channel (`k8s_end_exec`) -/

/-- One `resp.update()` cycle of the exec stream: the stdout and stderr
chunks readable in that cycle, if any. -/
structure ExecFrame where
  out : Option String
  err : Option String
deriving DecidableEq

/-- The final status message read from channel 3, already YAML-decoded:
the `status` field and the list of `details.causes[*].message` strings. -/
structure ExecStatus where
  status : String
  causes : List String
deriving DecidableEq

/-- An exec stream: the frames delivered until the stream closes, then the
final status message. -/
structure ExecResp where
  frames : List ExecFrame
  errChannel : ExecStatus
deriving DecidableEq

/-- The drain loop of `k8s_end_exec`: while the stream is open, collect
every readable stdout and stderr chunk (accumulators are reversed). -/
def drainFrames : List ExecFrame → List String → List String → List String × List String
  | [], souts, serrs => (souts.reverse, serrs.reverse)
  | f :: rest, souts, serrs =>
    let souts2 := match f.out with
      | some s => s :: souts
      | none => souts
    let serrs2 := match f.err with
      | some s => s :: serrs
      | none => serrs
    drainFrames rest souts2 serrs2

/-- Model of `k8s_end_exec`: drain the stream, read the status message; on
`Success` the exit code is 0, otherwise it is `int` of the first cause
message (`Except.error ()` models the uncaught exception raised when the
causes list is empty or the message is not an integer). -/
def k8s_end_exec (resp : ExecResp) : Except Unit (String × String × Int) :=
  let drained := drainFrames resp.frames [] []
  match
    (if resp.errChannel.status = "Success" then Except.ok (0 : Int)
     else
       match resp.errChannel.causes with
       | [] => Except.error ()
       | m :: _ =>
         match str2int m with
         | some n => Except.ok n
         | none => Except.error ()) with
  | Except.error e => Except.error e
  | Except.ok rc => Except.ok (String.join drained.1, String.join drained.2, rc)

/-! ## GPU process scanner (first phase of `main`) -/

/-- Model of the `csv.reader` pass over the `nvidia-smi` output followed by
per-field `strip` (faithful for the unquoted, comma-separated lines the
probe command produces). -/
def parseCsv (s : String) : List (List String) :=
  (pyLines s).map (fun line => (splitChar ',' line).map (fun f => pyStrip f))

/-- Parse of the container `/proc` listing (one `path<TAB>cmdline` line per
process): a line with no tab raises `ValueError` (modelled `Except.error`),
a path not starting with `/proc/` or with a non-numeric tail is skipped,
anything else yields a fresh `ContainerProcess`. -/
def parseContainerLines : List String → Except Unit (List ContainerProcess)
  | [] => Except.ok []
  | line :: rest =>
    match splitTab1 line with
    | none => Except.error ()
    | some (path, cmdline) =>
      if ¬ pyStartsWith path "/proc/" then parseContainerLines rest
      else
        match str2int (strDrop path 6) with
        | none => parseContainerLines rest
        | some pid =>
          match parseContainerLines rest with
          | Except.error e => Except.error e
          | Except.ok ps => Except.ok ({ pid := pid, cmdline := cmdline } :: ps)

/-- The tag key `'{}|{}|{}|{}|{}|{}'.format(GPU_CHECK_PROC_PREFIX,
randstr(), pod_name, pod_namespace, pod_node_name, container.name)`. -/
def mkTag (nonce pod ns node cont : String) : String :=
  GPU_CHECK_PROC_MARKER ++ "|" ++ nonce ++ "|" ++ pod ++ "|" ++ ns ++ "|" ++ node ++ "|" ++ cont

/-- Insertion-ordered key set of a `defaultdict` / `dict`. -/
def addNode (order : List String) (node : String) : List String :=
  if node ∈ order then order else order ++ [node]

/-- One (ready pod, container) candidate as the scan loop sees it: its
identity, the outcomes of the two probe commands (`Except.error ()` models
an exception raised by `k8s_exec`, otherwise exit code and stdout), the
`randstr()` nonce drawn for its tag, and whether the long-lived
`k8s_begin_exec` call succeeds. -/
structure ScanItem where
  pod_name : String
  pod_namespace : String
  node_name : String
  container_name : String
  smi : Except Unit (Int × String)
  proc : Except Unit (Int × String)
  nonce : String
  openOk : Bool

/-- State built by the scan loop: `gpu_containers`, `gpu_containers_map`
(tag to container position), the insertion-ordered node key set of
`gpu_node_to_containers_map`, and the keys of `exec_processes` in
insertion order. -/
structure ScanState where
  containers : List GpuContainer := []
  tagMap : List (String × Nat) := []
  nodeOrder : List String := []
  execKeys : List String := []

/-- One iteration of the scan loop body (lines 189-256 of the script).  A
container is registered only when `nvidia-smi` exits 0, the `/proc` listing
exits 0 and its parse raises nothing; the exec channel key is recorded only
when the long-lived exec opens without an exception (the surrounding
`except` block swallows every failure, dropping just that container). -/
def scanStep (st : ScanState) (it : ScanItem) : ScanState :=
  match it.smi with
  | Except.error _ => st
  | Except.ok (rc, stdout) =>
    if rc = 0 then
      let rows := parseCsv stdout
      match it.proc with
      | Except.error _ => st
      | Except.ok (rc2, out2) =>
        if rc2 = 0 then
          match parseContainerLines (pyLines out2) with
          | Except.error _ => st
          | Except.ok procs =>
            let c : GpuContainer :=
              { pod_name := it.pod_name, pod_namespace := it.pod_namespace,
                container_name := it.container_name, node_name := it.node_name,
                gpu_usage_list := rows, processes := procs, host_pid_ns := none }
            let idx := st.containers.length
            let key := mkTag it.nonce it.pod_name it.pod_namespace it.node_name it.container_name
            let st2 : ScanState :=
              { containers := st.containers ++ [c],
                tagMap := (key, idx) :: st.tagMap,
                nodeOrder := addNode st.nodeOrder it.node_name,
                execKeys := st.execKeys }
            if it.openOk then
              { st2 with execKeys := if key ∈ st2.execKeys then st2.execKeys else st2.execKeys ++ [key] }
            else st2
        else st
    else st

/-- The whole scan phase. -/
def scanPhase (items : List ScanItem) : ScanState :=
  items.foldl scanStep {}

/-! ## Node probe: host `/proc` line parsing (lines 329-357) -/

/-- Outcome of the per-line validity checks on one host `/proc` line. -/
inductive HostLineParse
  | skip
  | fatal
  | ok (r : HostRecord)
deriving DecidableEq

/-- Parse one line of the host `/proc` walk output.  `skip` models the
logged `continue` branches, `fatal` models an uncaught exception: the
`ValueError` of unpacking a line without exactly four tab-separated fields,
and the `IndexError` of `nspid_list[0]` when the NSpid entry list is
empty. -/
def parseHostLine (line : String) : HostLineParse :=
  match splitTabs line with
  | [proc_path, pid_ns, nspid0, cmdline] =>
    if ¬ pyStartsWith proc_path "/proc/" then HostLineParse.skip
    else
      match str2int (strDrop proc_path 6) with
      | none => HostLineParse.skip
      | some pid =>
        let nspid := pyStrip nspid0
        if ¬ pyStartsWith nspid "NSpid:" then HostLineParse.skip
        else
          match ((pySplitWs nspid).drop 1).mapM str2int with
          | none => HostLineParse.skip
          | some [] => HostLineParse.fatal
          | some (n0 :: restNs) =>
            if pid ≠ n0 then HostLineParse.skip
            else HostLineParse.ok { pid := pid, pid_ns := pid_ns,
                                    pid_in_container := restNs.head?, cmdline := cmdline }
  | _ => HostLineParse.fatal

/-- State threaded through the host `/proc` walk loop: the container list
(receiving `host_pid_ns` updates), `pid_ns_to_container_map`, and
`host_process_information` in order. -/
structure AState where
  containers : List GpuContainer
  pidNsMap : List (String × Nat)
  records : List HostRecord
deriving DecidableEq

/-- One iteration of the loop over host `/proc` lines (lines 329-371).  If
the command line holds the marker, the tag is the first `shlex` token
starting with the marker; no such token raises the explicit internal
error, and a tag absent from `gpu_containers_map` makes `.get` return
`None`, so the following attribute assignment raises — both are
`Except.error ()`. -/
def hostLineStep (tagMap : List (String × Nat)) (st : AState) (line : String) :
    Except Unit AState :=
  match parseHostLine line with
  | HostLineParse.skip => Except.ok st
  | HostLineParse.fatal => Except.error ()
  | HostLineParse.ok r =>
    if strContains r.cmdline GPU_CHECK_PROC_MARKER then
      match (shlexSplit r.cmdline).find? (fun p => pyStartsWith p GPU_CHECK_PROC_MARKER) with
      | none => Except.error ()
      | some key =>
        match dictGet tagMap key with
        | none => Except.error ()
        | some i =>
          match st.containers[i]? with
          | none => Except.error ()
          | some c =>
            Except.ok { containers := st.containers.set i { c with host_pid_ns := some r.pid_ns },
                        pidNsMap := (r.pid_ns, i) :: st.pidNsMap,
                        records := st.records ++ [r] }
    else Except.ok { st with records := st.records ++ [r] }

/-- The loop over all host `/proc` lines. -/
def phaseA (tagMap : List (String × Nat)) : List String → AState → Except Unit AState
  | [], st => Except.ok st
  | line :: rest, st =>
    match hostLineStep tagMap st line with
    | Except.error e => Except.error e
    | Except.ok st2 => phaseA tagMap rest st2

/-! ## Second pass: assigning host PIDs (lines 372-380) -/

/-- The inner loop with `break`: set `host_pid` on the first process whose
`pid` equals the record's derived container-local PID (a `None` derived PID
matches nothing). -/
def setHostPidFirst (pic : Option Int) (hostPid : Int) :
    List ContainerProcess → List ContainerProcess
  | [] => []
  | p :: ps =>
    if pic = some p.pid then { p with host_pid := some hostPid } :: ps
    else p :: setHostPidFirst pic hostPid ps

/-- Apply one `host_process_information` record: look its namespace up in
`pid_ns_to_container_map` and update that container's processes. -/
def applyHostRecord (nsMap : List (String × Nat)) (cs : List GpuContainer)
    (r : HostRecord) : List GpuContainer :=
  match dictGet nsMap r.pid_ns with
  | none => cs
  | some i =>
    match cs[i]? with
    | none => cs
    | some c => cs.set i { c with processes := setHostPidFirst r.pid_in_container r.pid c.processes }

/-- The second pass over all records. -/
def correlate (nsMap : List (String × Nat)) (records : List HostRecord)
    (cs : List GpuContainer) : List GpuContainer :=
  records.foldl (applyHostRecord nsMap) cs

/-! ## Third pass: GPU join (lines 381-390) -/

/-- The inner update of the GPU join: copy the GPU fields onto every
process whose `host_pid` equals the row's parsed PID. -/
def applyGpuRow (gname pci mem : String) (hostPid : Int) (p : ContainerProcess) :
    ContainerProcess :=
  if p.host_pid = some hostPid then
    { p with gpu_name := some gname, gpu_pci_address := some pci, gpu_used_memory := some mem }
  else p

/-- The loop over one container's `gpu_usage_list`: each row is unpacked
into exactly five fields and its PID field parsed with `int` — both
failures are uncaught (`Except.error ()`). -/
def joinRows : List (List String) → List ContainerProcess → Except Unit (List ContainerProcess)
  | [], ps => Except.ok ps
  | row :: rest, ps =>
    match row with
    | [gname, pci, hpid, _pname, mem] =>
      (match str2int hpid with
       | some h => joinRows rest (ps.map (applyGpuRow gname pci mem h))
       | none => Except.error ())
    | _ => Except.error ()

/-- GPU join for one container. -/
def gpuJoinContainer (c : GpuContainer) : Except Unit GpuContainer :=
  match joinRows c.gpu_usage_list c.processes with
  | Except.error e => Except.error e
  | Except.ok ps => Except.ok { c with processes := ps }

/-- The third pass runs over the entire `gpu_containers` list (line 382
iterates all containers, not only the probed node's). -/
def gpuJoinAll : List GpuContainer → Except Unit (List GpuContainer)
  | [] => Except.ok []
  | c :: rest =>
    match gpuJoinContainer c with
    | Except.error e => Except.error e
    | Except.ok c2 =>
      match gpuJoinAll rest with
      | Except.error e => Except.error e
      | Except.ok rest2 => Except.ok (c2 :: rest2)

/-! ## Node probe orchestration (lines 258-396) -/

/-- Outcome of one Kubernetes API call: success, or an `ApiException`
carrying an HTTP status. -/
inductive ApiOutcome
  | success
  | apiErr (status : Int)
deriving DecidableEq

/-- The probe pod name `'x-gpuproc-{}-{}'.format(randstr(...), gpu_node)`:
it embeds the freshly drawn random nonce. -/
def nodePodName (nonce node : String) : String :=
  "x-gpuproc-" ++ nonce ++ "-" ++ node

/-- The stale-pod delete (lines 292-297): a 404 `ApiException` is ignored,
any other `ApiException` is `sys.exit(1)`. -/
def deleteStalePod : ApiOutcome → Except Unit Unit
  | ApiOutcome.success => Except.ok ()
  | ApiOutcome.apiErr s => if s = 404 then Except.ok () else Except.error ()

/-- Result of the pod-creation retry loop. -/
inductive CreateResult
  | created
  | fatal
  | pending
deriving DecidableEq

/-- The creation retry loop (lines 299-308) driven by the trace of API
outcomes: success breaks out, a 409 conflict sleeps one second and
retries, any other `ApiException` is `sys.exit(1)`.  An exhausted
all-conflict trace leaves the loop still retrying (`pending`); the loop
itself has no attempt cap. -/
def createLoop : List ApiOutcome → CreateResult
  | [] => CreateResult.pending
  | ApiOutcome.success :: _ => CreateResult.created
  | ApiOutcome.apiErr s :: rest =>
    if s = 409 then createLoop rest else CreateResult.fatal

/-- Steps 4-5 of a node's turn (lines 320-396): run the host `/proc` walk,
and when it exits 0 parse, correlate and GPU-join.  The second component
records whether control reaches the pod deletion of line 396: an exception
raised by the walk exec, the parse, or the join propagates before that
line, so the deletion is skipped. -/
def processNodeCore (tagMap : List (String × Nat)) (walk : Except Unit (Int × String))
    (cs : List GpuContainer) : Except Unit (List GpuContainer) × Bool :=
  match walk with
  | Except.error _ => (Except.error (), false)
  | Except.ok (rc, out) =>
    if rc = 0 then
      match phaseA tagMap (pyLines out) { containers := cs, pidNsMap := [], records := [] } with
      | Except.error _ => (Except.error (), false)
      | Except.ok st =>
        match gpuJoinAll (correlate st.pidNsMap st.records st.containers) with
        | Except.error _ => (Except.error (), false)
        | Except.ok cs2 => (Except.ok cs2, true)
    else (Except.ok cs, true)

/-- Per-node external inputs: the stale-delete outcome, the creation
attempt trace, the walk outcome, and the outcome of the final deletion of
line 396 (which is not guarded, so any `ApiException` there is fatal). -/
structure NodeEnv where
  deleteOutcome : ApiOutcome
  createOutcomes : List ApiOutcome
  walk : Except Unit (Int × String)
  finalDelete : ApiOutcome

/-- One node's full turn.  The pending-phase poll loop (lines 310-315) has
no timeout and is modelled as eventually observing a non-Pending phase.  A
`pending` creation trace means the source loop is still retrying; it is
unreachable for complete traces and mapped to `Except.error ()`. -/
def nodeTurn (tagMap : List (String × Nat)) (env : NodeEnv) (cs : List GpuContainer) :
    Except Unit (List GpuContainer) :=
  match deleteStalePod env.deleteOutcome with
  | Except.error e => Except.error e
  | Except.ok _ =>
    match createLoop env.createOutcomes with
    | CreateResult.created =>
      match processNodeCore tagMap env.walk cs with
      | (Except.error e, _) => Except.error e
      | (Except.ok cs2, _) =>
        match env.finalDelete with
        | ApiOutcome.success => Except.ok cs2
        | ApiOutcome.apiErr _ => Except.error ()
    | _ => Except.error ()

/-- The loop over all GPU nodes. -/
def runNodes (tagMap : List (String × Nat)) : List NodeEnv → List GpuContainer →
    Except Unit (List GpuContainer)
  | [], cs => Except.ok cs
  | env :: rest, cs =>
    match nodeTurn tagMap env cs with
    | Except.error e => Except.error e
    | Except.ok cs2 => runNodes tagMap rest cs2

/-! ## Final report table (lines 412-420) -/

/-- One data row of the final table. -/
structure TableRow where
  node_name : String
  pod_name : String
  pod_namespace : String
  host_pid : Option Int
  pid : Int
  gpu_name : Option String
  gpu_pci_address : Option String
  gpu_used_memory : Option String
  cmdline : String
deriving DecidableEq

/-- The rows a single container contributes: one per process whose
`gpu_used_memory` is not `None`. -/
def rowsOfContainer (c : GpuContainer) : List TableRow :=
  c.processes.filterMap (fun p =>
    if p.gpu_used_memory ≠ none then
      some { node_name := c.node_name, pod_name := c.pod_name,
             pod_namespace := c.pod_namespace, host_pid := p.host_pid, pid := p.pid,
             gpu_name := p.gpu_name, gpu_pci_address := p.gpu_pci_address,
             gpu_used_memory := p.gpu_used_memory, cmdline := p.cmdline }
    else none)

/-- The full table (without the constant header row). -/
def buildTable : List GpuContainer → List TableRow
  | [] => []
  | c :: rest => rowsOfContainer c ++ buildTable rest

/-! ## Whole-run model with the `finally` cleanup (lines 179, 397-407) -/

/-- The cleanup loop over `exec_processes`: each channel gets the
terminating stdin line written and is reaped, inside a per-channel
`try`/`except`, so one failing reap never prevents the next (the `Bool`
records whether the reap succeeded). -/
def cleanupPhase (reapOf : String → Bool) (keys : List String) : List (String × Bool) :=
  keys.map (fun k => (k, reapOf k))

/-- Result of a whole run: the exec channel keys the cleanup phase
processed, and either the final table or the propagated fatal error. -/
structure MainResult where
  cleaned : List String
  outcome : Except Unit (List TableRow)

/-- The whole `main` body: scan, probe every discovered GPU node, and run
the cleanup loop inside `finally` — it executes whether the node phase
returns normally or raises (including the `sys.exit(1)` calls, whose
`SystemExit` also passes through `finally`). -/
def mainModel (items : List ScanItem) (envFor : String → NodeEnv)
    (reapOf : String → Bool) : MainResult :=
  { cleaned := (cleanupPhase reapOf (scanPhase items).execKeys).map Prod.fst,
    outcome :=
      match runNodes (scanPhase items).tagMap ((scanPhase items).nodeOrder.map envFor)
          (scanPhase items).containers with
      | Except.error _ => Except.error ()
      | Except.ok cs => Except.ok (buildTable cs) }

/-! ## Specification-side helper definitions used to state properties -/

/-- The first process of a list carrying a given container-local PID — the
process the `break`-terminated inner loop of the second pass selects. -/
def findPid (lp : Int) (ps : List ContainerProcess) : Option ContainerProcess :=
  ps.find? (fun q => decide (q.pid = lp))

/-- A GPU-usage row successfully unpacked and with its PID field parsed. -/
structure ParsedGpuRow where
  gname : String
  pci : String
  hostPid : Int
  mem : String
deriving DecidableEq

/-- Parse of one GPU-usage row (exactly five fields, integer PID). -/
def parseGpuRow : List String → Option ParsedGpuRow
  | [gname, pci, hpid, _pname, mem] =>
    (str2int hpid).map (fun h => { gname := gname, pci := pci, hostPid := h, mem := mem })
  | _ => none

/-- Parse of a whole `gpu_usage_list`, failing on the first bad row. -/
def parseGpuRows : List (List String) → Option (List ParsedGpuRow)
  | [] => some []
  | row :: rest =>
    match parseGpuRow row, parseGpuRows rest with
    | some pr, some prs => some (pr :: prs)
    | _, _ => none

/-- `applyGpuRow` on a parsed row. -/
def applyParsed (pr : ParsedGpuRow) (p : ContainerProcess) : ContainerProcess :=
  applyGpuRow pr.gname pr.pci pr.mem pr.hostPid p

/-- Unconditional overwrite of the three GPU fields from a row. -/
def setF (pr : ParsedGpuRow) (p : ContainerProcess) : ContainerProcess :=
  { p with gpu_name := some pr.gname, gpu_pci_address := some pr.pci,
           gpu_used_memory := some pr.mem }

/-- The GPU join restricted to successfully parsed rows. -/
def joinPure (prs : List ParsedGpuRow) (ps : List ContainerProcess) : List ContainerProcess :=
  prs.foldl (fun qs pr => qs.map (applyParsed pr)) ps

/-- The sequence of row updates applied to one process. -/
def applySeq (prs : List ParsedGpuRow) (p : ContainerProcess) : ContainerProcess :=
  prs.foldl (fun q pr => applyParsed pr q) p

/-- Whether some parsed row's PID matches the process's `host_pid`. -/
def hasMatch (prs : List ParsedGpuRow) (p : ContainerProcess) : Bool :=
  prs.any (fun pr => decide (p.host_pid = some pr.hostPid))

/-- Full-population invariant of one process: whenever `gpu_used_memory`
is set, the host PID and the other two GPU fields are set as well. -/
def procInv (p : ContainerProcess) : Prop :=
  p.gpu_used_memory ≠ none →
    p.host_pid ≠ none ∧ p.gpu_name ≠ none ∧ p.gpu_pci_address ≠ none

/-- The invariant over every process of every container. -/
def csInv (cs : List GpuContainer) : Prop :=
  ∀ c ∈ cs, ∀ p ∈ c.processes, procInv p

/-! ## General list helpers -/

theorem getElem?_set_self' {α : Type} (l : List α) (i : Nat) (a : α) (h : i < l.length) :
    (l.set i a)[i]? = some a := by
  induction l generalizing i with
  | nil => simp at h
  | cons x xs ih =>
    cases i with
    | zero => simp
    | succ n => simpa using ih n (by simpa using h)

theorem getElem?_set_ne' {α : Type} (l : List α) (i j : Nat) (a : α) (h : j ≠ i) :
    (l.set i a)[j]? = l[j]? := by
  induction l generalizing i j with
  | nil => simp
  | cons x xs ih =>
    cases i with
    | zero =>
      cases j with
      | zero => exact absurd rfl h
      | succ n => simp [List.set]
    | succ m =>
      cases j with
      | zero => simp [List.set]
      | succ n => simpa using ih m n (fun hh => h (by rw [hh]))

theorem lt_of_getElem?' {α : Type} {l : List α} {i : Nat} {a : α} (h : l[i]? = some a) :
    i < l.length := by
  induction l generalizing i with
  | nil => simp at h
  | cons x xs ih =>
    cases i with
    | zero => simp
    | succ n => simpa using ih (by simpa using h)

theorem mem_of_getElem?' {α : Type} {l : List α} {i : Nat} {a : α} (h : l[i]? = some a) :
    a ∈ l := by
  induction l generalizing i with
  | nil => simp at h
  | cons x xs ih =>
    cases i with
    | zero => simp_all
    | succ n =>
      simp only [List.getElem?_cons_succ] at h
      exact List.mem_cons_of_mem _ (ih h)

theorem mem_of_mem_set' {α : Type} {l : List α} {i : Nat} {a x : α} (h : x ∈ l.set i a) :
    x = a ∨ x ∈ l := by
  induction l generalizing i with
  | nil => simp at h
  | cons y ys ih =>
    cases i with
    | zero =>
      rcases List.mem_cons.mp h with h1 | h1
      · exact Or.inl h1
      · exact Or.inr (List.mem_cons_of_mem _ h1)
    | succ n =>
      rcases List.mem_cons.mp h with h1 | h1
      · exact Or.inr (h1 ▸ List.mem_cons_self _ _)
      · rcases ih h1 with h2 | h2
        · exact Or.inl h2
        · exact Or.inr (List.mem_cons_of_mem _ h2)

theorem dictGet_mem {m : List (String × Nat)} {k : String} {v : Nat}
    (h : dictGet m k = some v) : (k, v) ∈ m := by
  induction m with
  | nil => simp [dictGet] at h
  | cons kv rest ih =>
    obtain ⟨a, b⟩ := kv
    unfold dictGet at h
    rw [List.find?_cons] at h
    by_cases hk : a = k
    · subst hk
      simp at h
      subst h
      exact List.mem_cons_self _ _
    · have hd : (decide ((a, b).1 = k)) = false := by simp [hk]
      rw [hd] at h
      exact List.mem_cons_of_mem _ (ih (by unfold dictGet; exact h))

/-! ## Claim C4: probe pod deletion at the end of a node's turn -/

/-- C4 counterexample: with the host `/proc` walk (step 4) succeeding but
its parse (step 5) raising — here a line without four tab-separated
fields — the probe pod of the node is NOT deleted (the deletion of line
396 is never reached), contradicting the claim that deletion happens
regardless of the step 4/5 outcome. -/
theorem c4_counterexample :
    (processNodeCore [] (Except.ok ((0 : Int), "badline-no-tabs")) []).2 = false ∧
    (processNodeCore [] (Except.ok ((0 : Int), "badline-no-tabs")) []).1 = Except.error () :=
  ⟨rfl, rfl⟩

/-- C4 (amended): the probe pod is deleted at the end of the node's turn
exactly when the walk exec, the parsing/correlation and the GPU join raise
no exception — it is deleted both when the walk command exits zero and its
output is fully processed and when the walk command exits non-zero, but an
exception in the walk exec or in parsing skips the deletion and aborts the
run. -/
theorem c4_pod_deleted_iff_no_exception (tagMap : List (String × Nat))
    (walk : Except Unit (Int × String)) (cs : List GpuContainer) :
    (processNodeCore tagMap walk cs).2 = true ↔
      ∃ cs2, (processNodeCore tagMap walk cs).1 = Except.ok cs2 := by
  unfold processNodeCore
  rcases walk with e | ⟨rc, out⟩
  · simp
  · by_cases h0 : rc = 0
    · rcases hA : phaseA tagMap (pyLines out)
        { containers := cs, pidNsMap := [], records := [] } with e | st
      · simp [h0, hA]
      · rcases hJ : gpuJoinAll (correlate st.pidNsMap st.records st.containers) with e | cs2
        · simp [h0, hA, hJ]
        · simp [h0, hA, hJ]
    · simp [h0]

/-- C4 witness: a failing walk command (non-zero exit) still reaches the
pod deletion. -/
theorem c4_witness :
    (processNodeCore [] (Except.ok ((1 : Int), "x")) []).2 = true :=
  (c4_pod_deleted_iff_no_exception [] (Except.ok ((1 : Int), "x")) []).mpr ⟨[], rfl⟩

/-! ## Claim C5: pod-creation retry loop -/

/-- C5: after any run of 409-conflict creation failures, a successful
attempt breaks out of the retry loop with the pod created (no fatal
escalation), while a creation failure with any non-409 status is fatal for
the run. -/
theorem c5_conflict_retry_then_success (pre : List ApiOutcome) (s : Int)
    (hc : ∀ x ∈ pre, x = ApiOutcome.apiErr 409) :
    createLoop (pre ++ [ApiOutcome.success]) = CreateResult.created ∧
    (s ≠ 409 → createLoop (pre ++ [ApiOutcome.apiErr s]) = CreateResult.fatal) := by
  induction pre with
  | nil =>
    refine ⟨rfl, fun hs => ?_⟩
    simp [createLoop, hs]
  | cons x rest ih =>
    have hx := hc x (List.mem_cons_self _ _)
    subst hx
    have ih2 := ih (fun y hy => hc y (List.mem_cons_of_mem _ hy))
    constructor
    · simpa [createLoop] using ih2.1
    · intro hs
      simpa [createLoop] using ih2.2 hs

/-- C5 witness: creation fails twice with a conflict and succeeds on the
third attempt — the loop reports the pod created; a 500 error instead is
fatal. -/
theorem c5_witness :
    createLoop [ApiOutcome.apiErr 409, ApiOutcome.apiErr 409, ApiOutcome.success] =
      CreateResult.created ∧
    createLoop [ApiOutcome.apiErr 409, ApiOutcome.apiErr 409, ApiOutcome.apiErr 500] =
      CreateResult.fatal := by
  have h := c5_conflict_retry_then_success [ApiOutcome.apiErr 409, ApiOutcome.apiErr 409] 500
    (by decide)
  exact ⟨h.1, h.2 (by decide)⟩

/-! ## Claim C9: stale probe pod deletion -/

/-- C9 counterexample: the probe pod name embeds the freshly drawn random
nonce, so two runs (two nonces) produce different names for the same node —
the name is not a deterministic function of the node, and the pre-create
delete cannot remove a pod left over from a previous run. -/
theorem c9_counterexample :
    nodePodName "aaaaaaaaaa" "node1" ≠ nodePodName "bbbbbbbbbb" "node1" := by
  decide

/-- C9 (amended): before creating a node's probe pod the orchestrator
deletes the pod of the freshly generated name (the same name it then
creates), ignoring a 404 "not found" error, while any other delete error
is fatal for the run; the name embeds the random nonce, so distinct nonces
give distinct names and a pod from a previous run (different nonce) is not
the one deleted. -/
theorem c9_stale_delete_and_random_name (s : Int) (hs : s ≠ 404) :
    deleteStalePod ApiOutcome.success = Except.ok () ∧
    deleteStalePod (ApiOutcome.apiErr 404) = Except.ok () ∧
    deleteStalePod (ApiOutcome.apiErr s) = Except.error () ∧
    (∀ n1 n2 node : String, nodePodName n1 node = nodePodName n2 node → n1 = n2) := by
  refine ⟨rfl, by simp [deleteStalePod], by simp [deleteStalePod, hs], ?_⟩
  intro n1 n2 node h
  unfold nodePodName at h
  have hd : ("x-gpuproc-" ++ n1 ++ "-" ++ node).data = ("x-gpuproc-" ++ n2 ++ "-" ++ node).data := by
    rw [h]
  simp only [String.data_append] at hd
  have h2 := List.append_cancel_right (List.append_cancel_right hd)
  have h3 := List.append_cancel_left h2
  exact String.ext h3

/-- C9 witness: a 500 delete error is fatal while 404 is ignored. -/
theorem c9_witness :
    deleteStalePod (ApiOutcome.apiErr 404) = Except.ok () ∧
    deleteStalePod (ApiOutcome.apiErr 500) = Except.error () := by
  have h := c9_stale_delete_and_random_name 500 (by decide)
  exact ⟨h.2.1, h.2.2.1⟩

/-! ## Claim C6: malformed lines in probe output -/

/-- C6 counterexample: a host `/proc` line whose NSpid status entry lists
no integers at all (`NSpid:` with an empty tail) raises an uncaught
`IndexError`, aborting the whole walk — the following well-formed line is
never processed — instead of being logged and skipped as the claim
states. -/
theorem c6_counterexample :
    hostLineStep [] { containers := [], pidNsMap := [], records := [] }
      "/proc/5\tx\tNSpid:\tcmd" = Except.error () ∧
    phaseA [] ["/proc/5\tx\tNSpid:\tcmd", "/proc/1\tb\tNSpid: 1\tinit"]
      { containers := [], pidNsMap := [], records := [] } = Except.error () :=
  ⟨rfl, rfl⟩

/-- C6 (amended): malformed lines that fail the per-line validity checks
are logged and skipped with processing continuing — for a host `/proc`
line, one with four tab-separated fields whose path check, PID parse,
NSpid prefix check, NSpid integer parse or first-NSpid sanity check fails;
for a container `/proc` line, one with a tab whose path does not start
with `/proc/` or whose PID is not numeric.  However a host line without
exactly four tab-separated fields or with an empty NSpid integer list
aborts the run, a container line with no tab aborts that container's scan,
and a malformed GPU CSV row aborts the run at the join. -/
theorem c6_recoverable_lines_skipped (m : List (String × Nat)) (st : AState)
    (line : String) (rest : List String) :
    (parseHostLine line = HostLineParse.skip →
      phaseA m (line :: rest) st = phaseA m rest st) ∧
    (∀ a b, splitTab1 line = some (a, b) →
      (¬ pyStartsWith a "/proc/" ∨ str2int (strDrop a 6) = none) →
      parseContainerLines (line :: rest) = parseContainerLines rest) := by
  constructor
  · intro h
    simp [phaseA, hostLineStep, h]
  · intro a b hab hbad
    conv_lhs => rw [parseContainerLines.eq_def]
    dsimp only
    rw [hab]
    rcases hbad with hp | hi
    · simp [hp]
    · by_cases hp : pyStartsWith a "/proc/"
      · simp [hp, hi]
      · simp [hp]

/-- C6 witness: a host line with a non-numeric PID is skipped and the walk
continues; a container line with a bad path is skipped and the container
scan continues. -/
theorem c6_witness :
    phaseA [] ["/proc/x\ta\tNSpid: 1\tcmd"]
        { containers := [], pidNsMap := [], records := [] } =
      phaseA [] [] { containers := [], pidNsMap := [], records := [] } ∧
    parseContainerLines ["nota-proc-path\tcmd", "/proc/3\tfoo"] =
      parseContainerLines ["/proc/3\tfoo"] := by
  constructor
  · exact (c6_recoverable_lines_skipped [] { containers := [], pidNsMap := [], records := [] }
      "/proc/x\ta\tNSpid: 1\tcmd" []).1 (by rfl)
  · exact (c6_recoverable_lines_skipped [] { containers := [], pidNsMap := [], records := [] }
      "nota-proc-path\tcmd" ["/proc/3\tfoo"]).2 "nota-proc-path" "cmd" (by rfl)
      (Or.inl (by decide))

/-! ## Claim C8: marker tag absent from the tag registry -/

/-- C8: when a host process command line holds the marker, the extracted
tag (first shlex token starting with the marker) being absent from
`gpu_containers_map` makes the run fail loudly — `.get` returns `None` and
the attribute assignment on it raises — instead of the line being silently
dropped. -/
theorem c8_unknown_tag_is_fatal (m : List (String × Nat)) (st : AState) (line : String)
    (rest : List String) (r : HostRecord) (key : String)
    (hp : parseHostLine line = HostLineParse.ok r)
    (hc : strContains r.cmdline GPU_CHECK_PROC_MARKER = true)
    (hk : (shlexSplit r.cmdline).find? (fun p => pyStartsWith p GPU_CHECK_PROC_MARKER) = some key)
    (hm : dictGet m key = none) :
    phaseA m (line :: rest) st = Except.error () := by
  simp [phaseA, hostLineStep, hp, hc, hk, hm]

/-- C8 witness: a marker-carrying host line whose tag is not registered
aborts the run. -/
theorem c8_witness :
    phaseA []
      ["/proc/9\ta\tNSpid: 9 5\tsh -c echo " ++ String.singleton squote ++
        "X-GPUPROC|N|p1|nsA|n1|c1" ++ String.singleton squote ++ " && read val"]
      { containers := [], pidNsMap := [], records := [] } = Except.error () := by
  exact c8_unknown_tag_is_fatal [] { containers := [], pidNsMap := [], records := [] }
    ("/proc/9\ta\tNSpid: 9 5\tsh -c echo " ++ String.singleton squote ++
      "X-GPUPROC|N|p1|nsA|n1|c1" ++ String.singleton squote ++ " && read val") []
    { pid := 9, pid_ns := "a", pid_in_container := some 5,
      cmdline := "sh -c echo " ++ String.singleton squote ++ "X-GPUPROC|N|p1|nsA|n1|c1" ++
        String.singleton squote ++ " && read val" }
    "X-GPUPROC|N|p1|nsA|n1|c1" (by rfl) (by rfl) (by rfl) (by rfl)

/-! ## Claim C7: `k8s_end_exec` -/

/-- The drain loop collects exactly the readable stdout and stderr chunks,
in order, after the initial accumulator contents. -/
theorem drainFrames_spec (fs : List ExecFrame) (so se : List String) :
    drainFrames fs so se =
      (so.reverse ++ fs.filterMap ExecFrame.out, se.reverse ++ fs.filterMap ExecFrame.err) := by
  induction fs generalizing so se with
  | nil => simp [drainFrames]
  | cons f rest ih =>
    cases hf : f.out <;> cases hg : f.err <;>
      simp [drainFrames, hf, hg, ih]

/-- Starting from empty accumulators the drain loop returns every chunk of
the stream. -/
theorem drainFrames_all (fs : List ExecFrame) :
    drainFrames fs [] [] = (fs.filterMap ExecFrame.out, fs.filterMap ExecFrame.err) := by
  simpa using drainFrames_spec fs [] []

/-- C7: `k8s_end_exec` drains stdout and stderr until the stream closes
(the returned streams are the concatenation of every readable chunk), then
reads the final status message; a `Success` status gives exit code 0, and
any other status gives the integer parsed from the first cause message of
the structured error details. -/
theorem c7_end_exec_drains_and_exit_code (resp : ExecResp) :
    (resp.errChannel.status = "Success" →
      k8s_end_exec resp = Except.ok (String.join (resp.frames.filterMap ExecFrame.out),
        String.join (resp.frames.filterMap ExecFrame.err), 0)) ∧
    (∀ m ms n, resp.errChannel.status ≠ "Success" → resp.errChannel.causes = m :: ms →
      str2int m = some n →
      k8s_end_exec resp = Except.ok (String.join (resp.frames.filterMap ExecFrame.out),
        String.join (resp.frames.filterMap ExecFrame.err), n)) := by
  constructor
  · intro hs
    simp [k8s_end_exec, drainFrames_all, hs]
  · intro m ms n hs hc hn
    simp [k8s_end_exec, drainFrames_all, hs, hc, hn]

/-- C7 witness: a failing exec whose first cause message is `2` returns
the concatenated streams and exit code 2. -/
theorem c7_witness :
    k8s_end_exec { frames := [{ out := some "ab", err := none }, { out := none, err := some "e" },
                              { out := some "c", err := none }],
                   errChannel := { status := "Failure", causes := ["2", "x"] } } =
      Except.ok ("abc", "e", 2) := by
  exact ((c7_end_exec_drains_and_exit_code
    { frames := [{ out := some "ab", err := none }, { out := none, err := some "e" },
                 { out := some "c", err := none }],
      errChannel := { status := "Failure", causes := ["2", "x"] } }).2
    "2" ["x"] 2 (by decide) rfl (by rfl)).trans (by rfl)

/-! ## Claim C3: exec channel cleanup -/

/-- One scan step either leaves the exec key list unchanged or appends one
key that was not yet present. -/
theorem scanStep_execKeys_cases (st : ScanState) (it : ScanItem) :
    (scanStep st it).execKeys = st.execKeys ∨
      ∃ k, k ∉ st.execKeys ∧ (scanStep st it).execKeys = st.execKeys ++ [k] := by
  unfold scanStep
  split
  · exact Or.inl rfl
  · split
    · split
      · exact Or.inl rfl
      · split
        · split
          · exact Or.inl rfl
          · split
            · dsimp only
              split
              · exact Or.inl rfl
              · rename_i hk
                exact Or.inr ⟨_, hk, rfl⟩
            · exact Or.inl rfl
        · exact Or.inl rfl
    · exact Or.inl rfl

/-- The keys registered in `exec_processes` during the scan are pairwise
distinct (the dictionary holds each key once). -/
theorem scanPhase_execKeys_nodup (items : List ScanItem) :
    (scanPhase items).execKeys.Nodup := by
  suffices h : ∀ st : ScanState, st.execKeys.Nodup →
      (items.foldl scanStep st).execKeys.Nodup by
    exact h {} (by simp)
  induction items with
  | nil => intro st h; exact h
  | cons it rest ih =>
    intro st h
    refine ih _ ?_
    rcases scanStep_execKeys_cases st it with h1 | ⟨k, hk, h1⟩
    · rw [h1]; exact h
    · rw [h1, List.nodup_append]
      exact ⟨h, List.nodup_singleton _, by simpa [List.disjoint_singleton] using hk⟩

/-- C3: the cleanup phase inside `finally` processes exactly the exec
channels registered during the scan — each exactly once — and it does so
whatever the node-probe phase returned, including every error and fatal
termination path. -/
theorem c3_cleanup_exactly_once (items : List ScanItem) (envFor : String → NodeEnv)
    (reapOf : String → Bool) :
    (mainModel items envFor reapOf).cleaned = (scanPhase items).execKeys ∧
    (mainModel items envFor reapOf).cleaned.Nodup := by
  have hc : (mainModel items envFor reapOf).cleaned = (scanPhase items).execKeys := by
    show ((scanPhase items).execKeys.map (fun k => (k, reapOf k))).map Prod.fst =
      (scanPhase items).execKeys
    rw [List.map_map]
    exact List.map_id _
  exact ⟨hc, hc ▸ scanPhase_execKeys_nodup items⟩

/-! ## Claim C10: the GPU join pass -/

theorem applyParsed_eq (pr : ParsedGpuRow) (p : ContainerProcess) :
    applyParsed pr p = if p.host_pid = some pr.hostPid then setF pr p else p := rfl

theorem applyParsed_host (pr : ParsedGpuRow) (p : ContainerProcess) :
    (applyParsed pr p).host_pid = p.host_pid := by
  rw [applyParsed_eq]
  split <;> rfl

theorem setF_setF (pr pr2 : ParsedGpuRow) (p : ContainerProcess) :
    setF pr (setF pr2 p) = setF pr p := rfl

theorem setF_host (pr : ParsedGpuRow) (p : ContainerProcess) :
    (setF pr p).host_pid = p.host_pid := rfl

theorem applySeq_cons (pr : ParsedGpuRow) (prs : List ParsedGpuRow) (p : ContainerProcess) :
    applySeq (pr :: prs) p = applySeq prs (applyParsed pr p) := rfl

theorem applySeq_host (prs : List ParsedGpuRow) (p : ContainerProcess) :
    (applySeq prs p).host_pid = p.host_pid := by
  induction prs generalizing p with
  | nil => rfl
  | cons pr rest ih => rw [applySeq_cons, ih, applyParsed_host]

/-- Running the row updates on a process whose GPU fields were just
overwritten by a matching row either re-derives the same result as running
them on the original process (when a later row matches) or keeps the
overwrite. -/
theorem applySeq_setF (prs : List ParsedGpuRow) (r : ParsedGpuRow) (p : ContainerProcess)
    (h : p.host_pid = some r.hostPid) :
    applySeq prs (setF r p) = if hasMatch prs p then applySeq prs p else setF r p := by
  induction prs generalizing r with
  | nil => simp [applySeq, hasMatch, List.foldl]
  | cons pr rest ih =>
    rw [applySeq_cons, applySeq_cons]
    by_cases hm : p.host_pid = some pr.hostPid
    · have h1 : applyParsed pr (setF r p) = setF pr p := by
        simp [applyParsed_eq, setF_host, hm, setF_setF]
      have h2 : applyParsed pr p = setF pr p := by simp [applyParsed_eq, hm]
      have h3 : hasMatch (pr :: rest) p = true := by simp [hasMatch, hm]
      rw [h1, h2, h3, if_pos rfl]
    · have h1 : applyParsed pr (setF r p) = setF r p := by
        simp [applyParsed_eq, setF_host, hm]
      have h2 : applyParsed pr p = p := by simp [applyParsed_eq, hm]
      have h3 : hasMatch (pr :: rest) p = hasMatch rest p := by simp [hasMatch, hm]
      rw [h1, h2, h3]
      exact ih r h

theorem applySeq_no_match (prs : List ParsedGpuRow) (p : ContainerProcess)
    (h : hasMatch prs p = false) : applySeq prs p = p := by
  induction prs with
  | nil => rfl
  | cons pr rest ih =>
    simp only [hasMatch, List.any_cons, Bool.or_eq_false_iff, decide_eq_false_iff_not] at h
    rw [applySeq_cons, show applyParsed pr p = p from by simp [applyParsed_eq, h.1]]
    exact ih (by simpa [hasMatch] using h.2)

theorem applySeq_match_form (prs : List ParsedGpuRow) (p : ContainerProcess)
    (h : hasMatch prs p = true) :
    ∃ r : ParsedGpuRow, p.host_pid = some r.hostPid ∧ applySeq prs p = setF r p := by
  induction prs with
  | nil => simp [hasMatch] at h
  | cons pr rest ih =>
    rw [applySeq_cons]
    by_cases hm : p.host_pid = some pr.hostPid
    · rw [show applyParsed pr p = setF pr p from by simp [applyParsed_eq, hm],
        applySeq_setF rest pr p hm]
      cases hr : hasMatch rest p with
      | true =>
        obtain ⟨r, hr1, hr2⟩ := ih hr
        exact ⟨r, hr1, by simp [hr, hr2]⟩
      | false => exact ⟨pr, hm, by simp [hr]⟩
    · rw [show applyParsed pr p = p from by simp [applyParsed_eq, hm]]
      refine ih ?_
      simpa [hasMatch, hm] using h

/-- One full pass of the row updates is idempotent on a single process. -/
theorem applySeq_idem (prs : List ParsedGpuRow) (p : ContainerProcess) :
    applySeq prs (applySeq prs p) = applySeq prs p := by
  induction prs generalizing p with
  | nil => rfl
  | cons pr rest ih =>
    rw [applySeq_cons, applySeq_cons]
    by_cases hm : p.host_pid = some pr.hostPid
    · rw [show applyParsed pr p = setF pr p from by simp [applyParsed_eq, hm]]
      have hform : ∃ s, applySeq rest (setF pr p) = setF s p := by
        cases hr : hasMatch rest p with
        | true =>
          obtain ⟨r, hr1, hr2⟩ := applySeq_match_form rest p hr
          exact ⟨r, by rw [applySeq_setF rest pr p hm]; simp [hr, hr2]⟩
        | false => exact ⟨pr, by rw [applySeq_setF rest pr p hm]; simp [hr]⟩
      obtain ⟨s, hs⟩ := hform
      have h3 : applyParsed pr (applySeq rest (setF pr p)) = setF pr p := by
        rw [hs]
        simp [applyParsed_eq, setF_host, hm, setF_setF]
      rw [h3]
    · rw [show applyParsed pr p = p from by simp [applyParsed_eq, hm]]
      rw [show applyParsed pr (applySeq rest p) = applySeq rest p from by
        simp [applyParsed_eq, applySeq_host, hm]]
      exact ih p

/-- The whole-list GPU join acts pointwise on processes. -/
theorem joinPure_pointwise (prs : List ParsedGpuRow) (ps : List ContainerProcess) :
    joinPure prs ps = ps.map (applySeq prs) := by
  induction prs generalizing ps with
  | nil =>
    show ps = ps.map (applySeq [])
    rw [show applySeq ([] : List ParsedGpuRow) = id from rfl, List.map_id]
  | cons pr rest ih =>
    rw [show joinPure (pr :: rest) ps = joinPure rest (ps.map (applyParsed pr)) from rfl, ih,
      List.map_map]
    rfl

/-- `joinRows` factors into parsing all rows and a pure fold of updates. -/
theorem joinRows_eq (rows : List (List String)) (ps : List ContainerProcess) :
    joinRows rows ps =
      match parseGpuRows rows with
      | none => Except.error ()
      | some prs => Except.ok (joinPure prs ps) := by
  induction rows generalizing ps with
  | nil => rfl
  | cons row rest ih =>
    rcases row with _ | ⟨a, _ | ⟨b, _ | ⟨c, _ | ⟨d, _ | ⟨e, _ | ⟨f, tail⟩⟩⟩⟩⟩⟩
    · cases hpr : parseGpuRows rest <;> simp [joinRows, parseGpuRows, parseGpuRow, hpr]
    · cases hpr : parseGpuRows rest <;> simp [joinRows, parseGpuRows, parseGpuRow, hpr]
    · cases hpr : parseGpuRows rest <;> simp [joinRows, parseGpuRows, parseGpuRow, hpr]
    · cases hpr : parseGpuRows rest <;> simp [joinRows, parseGpuRows, parseGpuRow, hpr]
    · cases hpr : parseGpuRows rest <;> simp [joinRows, parseGpuRows, parseGpuRow, hpr]
    · cases hi : str2int c with
      | none =>
        cases hpr : parseGpuRows rest <;>
          simp [joinRows, parseGpuRows, parseGpuRow, hi, hpr]
      | some h =>
        rw [show joinRows ([a, b, c, d, e] :: rest) ps =
          joinRows rest (ps.map (applyGpuRow a b e h)) from by simp [joinRows, hi], ih]
        cases hpr : parseGpuRows rest with
        | none => simp [parseGpuRows, parseGpuRow, hi, hpr]
        | some prs =>
          simp only [parseGpuRows, parseGpuRow, hi, hpr, Option.map_some]
          rfl
    · cases hpr : parseGpuRows rest <;> simp [joinRows, parseGpuRows, parseGpuRow, hpr]

/-- Re-running `joinRows` on its own output changes nothing. -/
theorem joinRows_idem (rows : List (List String)) (ps ps2 : List ContainerProcess)
    (h : joinRows rows ps = Except.ok ps2) : joinRows rows ps2 = Except.ok ps2 := by
  rw [joinRows_eq] at h ⊢
  cases hpr : parseGpuRows rows with
  | none => rw [hpr] at h; simp at h
  | some prs =>
    rw [hpr] at h
    have h2 : Except.ok (joinPure prs ps) = Except.ok ps2 := h
    injection h2 with h3
    show Except.ok (joinPure prs ps2) = Except.ok ps2
    rw [← h3, joinPure_pointwise, joinPure_pointwise, List.map_map]
    have hf : applySeq prs ∘ applySeq prs = applySeq prs :=
      funext (fun p => applySeq_idem prs p)
    rw [hf]

/-- Re-running the GPU join on an already joined container is the
identity. -/
theorem gpuJoinContainer_idem (c c2 : GpuContainer)
    (h : gpuJoinContainer c = Except.ok c2) : gpuJoinContainer c2 = Except.ok c2 := by
  unfold gpuJoinContainer at h
  cases hj : joinRows c.gpu_usage_list c.processes with
  | error e => rw [hj] at h; simp at h
  | ok ps =>
    rw [hj] at h
    injection h with h
    subst h
    have h2 := joinRows_idem c.gpu_usage_list c.processes ps hj
    unfold gpuJoinContainer
    rw [show ({ c with processes := ps } : GpuContainer).gpu_usage_list = c.gpu_usage_list from
        rfl,
      show ({ c with processes := ps } : GpuContainer).processes = ps from rfl, h2]

/-- Re-running the GPU join pass over the whole container list is the
identity on its own output. -/
theorem gpuJoinAll_idem (cs cs2 : List GpuContainer)
    (h : gpuJoinAll cs = Except.ok cs2) : gpuJoinAll cs2 = Except.ok cs2 := by
  induction cs generalizing cs2 with
  | nil =>
    unfold gpuJoinAll at h
    injection h with h
    subst h
    rfl
  | cons c rest ih =>
    unfold gpuJoinAll at h
    cases hc : gpuJoinContainer c with
    | error e => rw [hc] at h; simp at h
    | ok c2 =>
      rw [hc] at h
      cases hr : gpuJoinAll rest with
      | error e => rw [hr] at h; simp at h
      | ok rest2 =>
        rw [hr] at h
        injection h with h
        subst h
        show (match gpuJoinContainer c2 with
          | Except.error e => Except.error e
          | Except.ok c3 =>
            match gpuJoinAll rest2 with
            | Except.error e => Except.error e
            | Except.ok rest3 => Except.ok (c3 :: rest3)) = Except.ok (c2 :: rest2)
        rw [gpuJoinContainer_idem c c2 hc, ih rest2 hr]

/-- C10: the GPU-join pass of a node's turn runs over the entire
`gpu_containers` list (not only the probed node's containers), and it is
idempotent — joining an already joined container list returns it
unchanged. -/
theorem c10_gpu_join_idempotent_over_all_containers :
    (∀ cs cs2, gpuJoinAll cs = Except.ok cs2 → gpuJoinAll cs2 = Except.ok cs2) ∧
    (∀ (tagMap : List (String × Nat)) (out : String) (cs : List GpuContainer),
      (processNodeCore tagMap (Except.ok ((0 : Int), out)) cs).1 =
        match phaseA tagMap (pyLines out) { containers := cs, pidNsMap := [], records := [] } with
        | Except.error _ => Except.error ()
        | Except.ok st => gpuJoinAll (correlate st.pidNsMap st.records st.containers)) := by
  constructor
  · exact fun cs cs2 h => gpuJoinAll_idem cs cs2 h
  · intro tagMap out cs
    unfold processNodeCore
    cases hA : phaseA tagMap (pyLines out) { containers := cs, pidNsMap := [], records := [] } with
    | error e => simp [hA]
    | ok st =>
      cases hJ : gpuJoinAll (correlate st.pidNsMap st.records st.containers) with
      | error e => simp [hA, hJ]
      | ok cs2 => simp [hA, hJ]

/-- C10 witness: joining a one-container list with a matching GPU row, then
joining the result again, leaves it unchanged. -/
theorem c10_witness :
    gpuJoinAll [GpuContainer.mk "p" "n" "c" "d" [["g", "b", "34", "x", "5M"]]
        [ContainerProcess.mk 7 "y" (some 34) none none none] none] =
      Except.ok [GpuContainer.mk "p" "n" "c" "d" [["g", "b", "34", "x", "5M"]]
        [ContainerProcess.mk 7 "y" (some 34) (some "g") (some "5M") (some "b")] none] ∧
    gpuJoinAll [GpuContainer.mk "p" "n" "c" "d" [["g", "b", "34", "x", "5M"]]
        [ContainerProcess.mk 7 "y" (some 34) (some "g") (some "5M") (some "b")] none] =
      Except.ok [GpuContainer.mk "p" "n" "c" "d" [["g", "b", "34", "x", "5M"]]
        [ContainerProcess.mk 7 "y" (some 34) (some "g") (some "5M") (some "b")] none] := by
  refine ⟨rfl, ?_⟩
  exact c10_gpu_join_idempotent_over_all_containers.1
    [GpuContainer.mk "p" "n" "c" "d" [["g", "b", "34", "x", "5M"]]
      [ContainerProcess.mk 7 "y" (some 34) none none none] none] _ (by rfl)

/-! ## Claim C2: fully populated table rows -/

/-- Processes created by the container `/proc` scan have no GPU fields. -/
theorem parseContainerLines_fresh (lines : List String) (ps : List ContainerProcess)
    (h : parseContainerLines lines = Except.ok ps) :
    ∀ p ∈ ps, p.gpu_used_memory = none := by
  induction lines generalizing ps with
  | nil =>
    unfold parseContainerLines at h
    injection h with h
    subst h
    intro p hp
    simp at hp
  | cons line rest ih =>
    unfold parseContainerLines at h
    cases hs : splitTab1 line with
    | none => rw [hs] at h; simp at h
    | some pr =>
      obtain ⟨path, cmdline⟩ := pr
      rw [hs] at h
      dsimp only at h
      by_cases hp : pyStartsWith path "/proc/"
      · rw [if_neg (by simp [hp])] at h
        cases hi : str2int (strDrop path 6) with
        | none => rw [hi] at h; exact ih _ h
        | some pid =>
          rw [hi] at h
          cases hr : parseContainerLines rest with
          | error e => rw [hr] at h; simp at h
          | ok ps0 =>
            rw [hr] at h
            injection h with h
            subst h
            intro p hp2
            rcases List.mem_cons.mp hp2 with h4 | h4
            · subst h4; rfl
            · exact ih ps0 hr p h4
      · rw [if_pos (by simp [hp])] at h
        exact ih _ h

/-- One scan step either leaves the container list unchanged or appends a
container all of whose processes are GPU-field-free. -/
theorem scanStep_containers_cases (st : ScanState) (it : ScanItem) :
    (scanStep st it).containers = st.containers ∨
      ∃ c : GpuContainer, (∀ p ∈ c.processes, p.gpu_used_memory = none) ∧
        (scanStep st it).containers = st.containers ++ [c] := by
  unfold scanStep
  split
  · exact Or.inl rfl
  · split
    · split
      · exact Or.inl rfl
      · split
        · split
          · exact Or.inl rfl
          · rename_i procs hparse
            dsimp only
            split
            · exact Or.inr ⟨_, parseContainerLines_fresh _ _ hparse, rfl⟩
            · exact Or.inr ⟨_, parseContainerLines_fresh _ _ hparse, rfl⟩
        · exact Or.inl rfl
    · exact Or.inl rfl

/-- Every container built by the scan phase has GPU-field-free processes. -/
theorem scanPhase_fresh (items : List ScanItem) :
    ∀ c ∈ (scanPhase items).containers, ∀ p ∈ c.processes, p.gpu_used_memory = none := by
  suffices h : ∀ st : ScanState,
      (∀ c ∈ st.containers, ∀ p ∈ c.processes, p.gpu_used_memory = none) →
      ∀ c ∈ (items.foldl scanStep st).containers, ∀ p ∈ c.processes,
        p.gpu_used_memory = none by
    refine h {} ?_
    intro c hc
    simp at hc
  induction items with
  | nil => intro st h; exact h
  | cons it rest ih =>
    intro st h
    refine ih _ ?_
    rcases scanStep_containers_cases st it with h1 | ⟨c, hc, h1⟩
    · rw [h1]; exact h
    · rw [h1]
      intro c2 hc2 p hp
      rcases List.mem_append.mp hc2 with h2 | h2
      · exact h c2 h2 p hp
      · rw [List.mem_singleton] at h2
        subst h2
        exact hc p hp

/-- GPU-field-free containers satisfy the population invariant vacuously. -/
theorem csInv_of_fresh (cs : List GpuContainer)
    (h : ∀ c ∈ cs, ∀ p ∈ c.processes, p.gpu_used_memory = none) : csInv cs := by
  intro c hc p hp hne
  exact absurd (h c hc p hp) hne

/-- One host-line step only updates `host_pid_ns`, keeping the process
invariant. -/
theorem hostLineStep_inv (m : List (String × Nat)) (st st2 : AState) (line : String)
    (h : hostLineStep m st line = Except.ok st2) (hinv : csInv st.containers) :
    csInv st2.containers := by
  unfold hostLineStep at h
  cases hp : parseHostLine line with
  | skip => rw [hp] at h; injection h with h; subst h; exact hinv
  | fatal => rw [hp] at h; simp at h
  | ok r =>
    rw [hp] at h
    dsimp only at h
    by_cases hc : strContains r.cmdline GPU_CHECK_PROC_MARKER
    · rw [if_pos hc] at h
      cases hk : (shlexSplit r.cmdline).find?
          (fun p => pyStartsWith p GPU_CHECK_PROC_MARKER) with
      | none => rw [hk] at h; simp at h
      | some key =>
        rw [hk] at h
        dsimp only at h
        cases hm : dictGet m key with
        | none => rw [hm] at h; simp at h
        | some i =>
          rw [hm] at h
          dsimp only at h
          cases hci : st.containers[i]? with
          | none => rw [hci] at h; simp at h
          | some c =>
            rw [hci] at h
            dsimp only at h
            injection h with h
            subst h
            intro c2 hc2 p hp2
            rcases mem_of_mem_set' hc2 with h4 | h4
            · subst h4
              exact hinv c (mem_of_getElem?' hci) p hp2
            · exact hinv c2 h4 p hp2
    · rw [if_neg hc] at h
      injection h with h
      subst h
      exact hinv

/-- The whole host `/proc` walk keeps the process invariant. -/
theorem phaseA_inv (m : List (String × Nat)) (lines : List String) (st st2 : AState)
    (h : phaseA m lines st = Except.ok st2) (hinv : csInv st.containers) :
    csInv st2.containers := by
  induction lines generalizing st with
  | nil => unfold phaseA at h; injection h with h; subst h; exact hinv
  | cons line rest ih =>
    unfold phaseA at h
    cases hs : hostLineStep m st line with
    | error e => rw [hs] at h; simp at h
    | ok st3 =>
      rw [hs] at h
      exact ih st3 h (hostLineStep_inv m st st3 line hs hinv)

/-- Membership after the `break`-style host PID assignment. -/
theorem mem_setHostPidFirst (pic : Option Int) (hostPid : Int) (ps : List ContainerProcess)
    (q : ContainerProcess) (h : q ∈ setHostPidFirst pic hostPid ps) :
    q ∈ ps ∨ ∃ p ∈ ps, q = { p with host_pid := some hostPid } := by
  induction ps with
  | nil => simp [setHostPidFirst] at h
  | cons p rest ih =>
    unfold setHostPidFirst at h
    by_cases hc : pic = some p.pid
    · rw [if_pos hc] at h
      rcases List.mem_cons.mp h with h1 | h1
      · exact Or.inr ⟨p, List.mem_cons_self _ _, h1⟩
      · exact Or.inl (List.mem_cons_of_mem _ h1)
    · rw [if_neg hc] at h
      rcases List.mem_cons.mp h with h1 | h1
      · exact Or.inl (h1 ▸ List.mem_cons_self _ _)
      · rcases ih h1 with h2 | ⟨p2, hp2, h2⟩
        · exact Or.inl (List.mem_cons_of_mem _ h2)
        · exact Or.inr ⟨p2, List.mem_cons_of_mem _ hp2, h2⟩

/-- Applying one host record keeps the process invariant (it sets
`host_pid` to a non-`None` value and touches nothing else). -/
theorem applyHostRecord_inv (m : List (String × Nat)) (cs : List GpuContainer)
    (r : HostRecord) (hinv : csInv cs) : csInv (applyHostRecord m cs r) := by
  unfold applyHostRecord
  cases hd : dictGet m r.pid_ns with
  | none => exact hinv
  | some i =>
    dsimp only
    cases hci : cs[i]? with
    | none => exact hinv
    | some c =>
      dsimp only
      intro c2 hc2 p hp
      rcases mem_of_mem_set' hc2 with h1 | h1
      · subst h1
        rcases mem_setHostPidFirst _ _ _ p hp with h2 | ⟨p0, hp0, h2⟩
        · exact hinv c (mem_of_getElem?' hci) p h2
        · subst h2
          intro hne
          have h3 := hinv c (mem_of_getElem?' hci) p0 hp0 hne
          exact ⟨by simp, h3.2.1, h3.2.2⟩
      · exact hinv c2 h1 p hp

/-- The second pass keeps the process invariant. -/
theorem correlate_inv (m : List (String × Nat)) (records : List HostRecord)
    (cs : List GpuContainer) (hinv : csInv cs) : csInv (correlate m records cs) := by
  induction records generalizing cs with
  | nil => exact hinv
  | cons r rest ih => exact ih _ (applyHostRecord_inv m cs r hinv)

/-- The GPU-row update establishes the invariant: it fills all three GPU
fields together and fires only on processes with a set `host_pid`. -/
theorem applyGpuRow_procInv (g b mem : String) (h : Int) (p : ContainerProcess)
    (hp : procInv p) : procInv (applyGpuRow g b mem h p) := by
  unfold applyGpuRow
  split
  · rename_i hc
    intro _
    exact ⟨by simp [hc], by simp, by simp⟩
  · exact hp

/-- The per-container GPU join keeps the process invariant. -/
theorem joinRows_inv (rows : List (List String)) (ps ps2 : List ContainerProcess)
    (h : joinRows rows ps = Except.ok ps2) (hinv : ∀ p ∈ ps, procInv p) :
    ∀ p ∈ ps2, procInv p := by
  induction rows generalizing ps with
  | nil =>
    unfold joinRows at h
    injection h with h
    subst h
    exact hinv
  | cons row rest ih =>
    unfold joinRows at h
    rcases row with _ | ⟨a, _ | ⟨b, _ | ⟨c, _ | ⟨d, _ | ⟨e, _ | ⟨f, tail⟩⟩⟩⟩⟩⟩
    · simp at h
    · simp at h
    · simp at h
    · simp at h
    · simp at h
    · dsimp only at h
      cases hi : str2int c with
      | none => rw [hi] at h; simp at h
      | some hh =>
        rw [hi] at h
        refine ih _ h ?_
        intro p hp
        rcases List.mem_map.mp hp with ⟨p0, hp0, h2⟩
        subst h2
        exact applyGpuRow_procInv a b e hh p0 (hinv p0 hp0)
    · simp at h

/-- The whole GPU join pass keeps the process invariant. -/
theorem gpuJoinAll_inv (cs cs2 : List GpuContainer) (h : gpuJoinAll cs = Except.ok cs2)
    (hinv : csInv cs) : csInv cs2 := by
  induction cs generalizing cs2 with
  | nil =>
    unfold gpuJoinAll at h
    injection h with h
    subst h
    intro c hc
    simp at hc
  | cons c rest ih =>
    unfold gpuJoinAll at h
    cases hc1 : gpuJoinContainer c with
    | error e => rw [hc1] at h; simp at h
    | ok c2 =>
      rw [hc1] at h
      cases hr : gpuJoinAll rest with
      | error e => rw [hr] at h; simp at h
      | ok rest2 =>
        rw [hr] at h
        injection h with h
        subst h
        intro c3 hc3 p hp
        rcases List.mem_cons.mp hc3 with h1 | h1
        · subst h1
          unfold gpuJoinContainer at hc1
          cases hj : joinRows c.gpu_usage_list c.processes with
          | error e => rw [hj] at hc1; simp at hc1
          | ok ps =>
            rw [hj] at hc1
            injection hc1 with hc1
            subst hc1
            exact joinRows_inv c.gpu_usage_list c.processes ps hj
              (fun p0 hp0 => hinv c (List.mem_cons_self _ _) p0 hp0) p hp
        · exact ih rest2 hr (fun c4 hc4 p4 hp4 =>
            hinv c4 (List.mem_cons_of_mem _ hc4) p4 hp4) c3 h1 p hp

/-- One node's data processing keeps the process invariant. -/
theorem processNodeCore_inv (m : List (String × Nat)) (walk : Except Unit (Int × String))
    (cs cs2 : List GpuContainer) (h : (processNodeCore m walk cs).1 = Except.ok cs2)
    (hinv : csInv cs) : csInv cs2 := by
  unfold processNodeCore at h
  rcases walk with e | ⟨rc, out⟩
  · simp at h
  · dsimp only at h
    by_cases h0 : rc = 0
    · rw [if_pos h0] at h
      cases hA : phaseA m (pyLines out) { containers := cs, pidNsMap := [], records := [] } with
      | error e => rw [hA] at h; simp at h
      | ok st =>
        rw [hA] at h
        dsimp only at h
        cases hJ : gpuJoinAll (correlate st.pidNsMap st.records st.containers) with
        | error e => rw [hJ] at h; simp at h
        | ok cs3 =>
          rw [hJ] at h
          have h2 : Except.ok cs3 = Except.ok cs2 := h
          injection h2 with h2
          subst h2
          exact gpuJoinAll_inv _ _ hJ (correlate_inv _ _ _ (phaseA_inv m _ _ st hA hinv))
    · rw [if_neg h0] at h
      have h2 : Except.ok cs = Except.ok cs2 := h
      injection h2 with h2
      subst h2
      exact hinv

/-- One node's full turn keeps the process invariant. -/
theorem nodeTurn_inv (m : List (String × Nat)) (env : NodeEnv) (cs cs2 : List GpuContainer)
    (h : nodeTurn m env cs = Except.ok cs2) (hinv : csInv cs) : csInv cs2 := by
  unfold nodeTurn at h
  cases hd : deleteStalePod env.deleteOutcome with
  | error e => rw [hd] at h; simp at h
  | ok u =>
    rw [hd] at h
    cases hcl : createLoop env.createOutcomes with
    | created =>
      rw [hcl] at h
      cases hpc : processNodeCore m env.walk cs with
      | mk res deleted =>
        rw [hpc] at h
        cases res with
        | error e => simp at h
        | ok cs3 =>
          dsimp only at h
          cases hf : env.finalDelete with
          | success =>
            rw [hf] at h
            injection h with h
            subst h
            exact processNodeCore_inv m env.walk cs cs3 (by rw [hpc]) hinv
          | apiErr s => rw [hf] at h; simp at h
    | fatal => rw [hcl] at h; simp at h
    | pending => rw [hcl] at h; simp at h

/-- The node loop keeps the process invariant. -/
theorem runNodes_inv (m : List (String × Nat)) (envs : List NodeEnv)
    (cs cs2 : List GpuContainer) (h : runNodes m envs cs = Except.ok cs2)
    (hinv : csInv cs) : csInv cs2 := by
  induction envs generalizing cs with
  | nil => unfold runNodes at h; injection h with h; subst h; exact hinv
  | cons env rest ih =>
    unfold runNodes at h
    cases hn : nodeTurn m env cs with
    | error e => rw [hn] at h; simp at h
    | ok cs3 =>
      rw [hn] at h
      exact ih cs3 h (nodeTurn_inv m env cs cs3 hn hinv)

/-- Every table row stems from a process with `gpu_used_memory` set, and
copies that process's fields. -/
theorem mem_buildTable (cs : List GpuContainer) (row : TableRow) (h : row ∈ buildTable cs) :
    ∃ c ∈ cs, ∃ p ∈ c.processes, p.gpu_used_memory ≠ none ∧
      row.host_pid = p.host_pid ∧ row.gpu_name = p.gpu_name ∧
      row.gpu_pci_address = p.gpu_pci_address ∧ row.gpu_used_memory = p.gpu_used_memory := by
  induction cs with
  | nil => simp [buildTable] at h
  | cons c rest ih =>
    unfold buildTable at h
    rcases List.mem_append.mp h with h1 | h1
    · unfold rowsOfContainer at h1
      rcases List.mem_filterMap.mp h1 with ⟨p, hp, h2⟩
      by_cases hm : p.gpu_used_memory = none
      · rw [if_neg (by simp [hm])] at h2
        simp at h2
      · rw [if_pos hm] at h2
        injection h2 with h2
        subst h2
        exact ⟨c, List.mem_cons_self _ _, p, hp, hm, rfl, rfl, rfl, rfl⟩
    · obtain ⟨c0, hc0, p, hp, hmem, h3, h4, h5, h6⟩ := ih h1
      exact ⟨c0, List.mem_cons_of_mem _ hc0, p, hp, hmem, h3, h4, h5, h6⟩

/-- C2: every data row of the final report table has a non-null host PID
and all three GPU fields populated — GPU attribution is never partial. -/
theorem c2_table_rows_fully_populated (items : List ScanItem) (envFor : String → NodeEnv)
    (reapOf : String → Bool) (rows : List TableRow) (row : TableRow)
    (h : (mainModel items envFor reapOf).outcome = Except.ok rows) (hrow : row ∈ rows) :
    row.host_pid ≠ none ∧ row.gpu_name ≠ none ∧ row.gpu_pci_address ≠ none ∧
      row.gpu_used_memory ≠ none := by
  have h1 : (match runNodes (scanPhase items).tagMap ((scanPhase items).nodeOrder.map envFor)
      (scanPhase items).containers with
    | Except.error _ => (Except.error () : Except Unit (List TableRow))
    | Except.ok cs => Except.ok (buildTable cs)) = Except.ok rows := h
  cases hr : runNodes (scanPhase items).tagMap ((scanPhase items).nodeOrder.map envFor)
      (scanPhase items).containers with
  | error e => rw [hr] at h1; simp at h1
  | ok cs =>
    rw [hr] at h1
    have h2 : Except.ok (buildTable cs) = Except.ok rows := h1
    injection h2 with h2
    subst h2
    have hinv : csInv cs := runNodes_inv _ _ _ _ hr
      (csInv_of_fresh _ (scanPhase_fresh items))
    obtain ⟨c, hc, p, hp, hmem, h3, h4, h5, h6⟩ := mem_buildTable cs row hrow
    have h7 := hinv c hc p hp hmem
    refine ⟨by rw [h3]; exact h7.1, by rw [h4]; exact h7.2.1,
      by rw [h5]; exact h7.2.2, by rw [h6]; exact hmem⟩

/-- C2 witness: the full pipeline on a one-container, one-node scenario
produces exactly one fully populated row. -/
theorem c2_witness :
    (mainModel
        [ScanItem.mk "p1" "nsA" "n1" "c1" (Except.ok ((0 : Int), "g, p, 34, procX, 5M"))
          (Except.ok ((0 : Int), "/proc/7\tprocX")) "N" true]
        (fun _ => NodeEnv.mk (ApiOutcome.apiErr 404)
          [ApiOutcome.apiErr 409, ApiOutcome.success]
          (Except.ok ((0 : Int),
            "/proc/9\ta\tNSpid: 9 5\tsh -c echo " ++ String.singleton squote ++
              "X-GPUPROC|N|p1|nsA|n1|c1" ++ String.singleton squote ++ " && read val" ++
              "\n" ++ "/proc/34\ta\tNSpid: 34 7\tprocX"))
          ApiOutcome.success)
        (fun _ => true)).outcome =
      Except.ok [TableRow.mk "n1" "p1" "nsA" (some 34) 7 (some "g") (some "p")
        (some "5M") "procX"] ∧
    ((TableRow.mk "n1" "p1" "nsA" (some 34) 7 (some "g") (some "p")
        (some "5M") "procX").host_pid ≠ none ∧
      (TableRow.mk "n1" "p1" "nsA" (some 34) 7 (some "g") (some "p")
        (some "5M") "procX").gpu_name ≠ none ∧
      (TableRow.mk "n1" "p1" "nsA" (some 34) 7 (some "g") (some "p")
        (some "5M") "procX").gpu_pci_address ≠ none ∧
      (TableRow.mk "n1" "p1" "nsA" (some 34) 7 (some "g") (some "p")
        (some "5M") "procX").gpu_used_memory ≠ none) := by
  refine ⟨rfl, ?_⟩
  exact c2_table_rows_fully_populated
    [ScanItem.mk "p1" "nsA" "n1" "c1" (Except.ok ((0 : Int), "g, p, 34, procX, 5M"))
      (Except.ok ((0 : Int), "/proc/7\tprocX")) "N" true]
    (fun _ => NodeEnv.mk (ApiOutcome.apiErr 404)
      [ApiOutcome.apiErr 409, ApiOutcome.success]
      (Except.ok ((0 : Int),
        "/proc/9\ta\tNSpid: 9 5\tsh -c echo " ++ String.singleton squote ++
          "X-GPUPROC|N|p1|nsA|n1|c1" ++ String.singleton squote ++ " && read val" ++
          "\n" ++ "/proc/34\ta\tNSpid: 34 7\tprocX"))
      ApiOutcome.success)
    (fun _ => true)
    [TableRow.mk "n1" "p1" "nsA" (some 34) 7 (some "g") (some "p") (some "5M") "procX"]
    (TableRow.mk "n1" "p1" "nsA" (some 34) 7 (some "g") (some "p") (some "5M") "procX")
    (by rfl) (List.mem_cons_self _ _)

/-! ## Claim C1: the PID correlator -/

theorem setHostPidFirst_none (hostPid : Int) (ps : List ContainerProcess) :
    setHostPidFirst none hostPid ps = ps := by
  induction ps with
  | nil => rfl
  | cons p rest ih =>
    unfold setHostPidFirst
    rw [if_neg (by simp), ih]

theorem setHostPidFirst_cons_ne (pic : Option Int) (hostPid : Int) (p : ContainerProcess)
    (rest : List ContainerProcess) (h : ¬ pic = some p.pid) :
    setHostPidFirst pic hostPid (p :: rest) = p :: setHostPidFirst pic hostPid rest := by
  simp only [setHostPidFirst]
  rw [if_neg h]

theorem setHostPidFirst_cons_eq (pic : Option Int) (hostPid : Int) (p : ContainerProcess)
    (rest : List ContainerProcess) (h : pic = some p.pid) :
    setHostPidFirst pic hostPid (p :: rest) =
      { p with host_pid := some hostPid } :: rest := by
  simp only [setHostPidFirst]
  rw [if_pos h]

/-- Assigning a host PID for the matching local PID updates the first
matching process, which is also the one `find?` returns. -/
theorem findPid_setHostPidFirst_eq (lp : Int) (hostPid : Int) (ps : List ContainerProcess) :
    findPid lp (setHostPidFirst (some lp) hostPid ps) =
      (findPid lp ps).map (fun q => { q with host_pid := some hostPid }) := by
  induction ps with
  | nil => rfl
  | cons p rest ih =>
    by_cases hc : lp = p.pid
    · subst hc
      simp [setHostPidFirst, findPid, List.find?_cons]
    · rw [setHostPidFirst_cons_ne _ _ _ _ (by simpa using hc)]
      unfold findPid
      rw [List.find?_cons, List.find?_cons,
        show (decide (p.pid = lp)) = false from by simp; exact fun hh => hc hh.symm]
      exact ih

/-- Assigning a host PID for a different local PID leaves the process
`find?` returns for this local PID unchanged. -/
theorem findPid_setHostPidFirst_ne (lp lp2 : Int) (hostPid : Int)
    (ps : List ContainerProcess) (hne : lp2 ≠ lp) :
    findPid lp (setHostPidFirst (some lp2) hostPid ps) = findPid lp ps := by
  induction ps with
  | nil => rfl
  | cons p rest ih =>
    by_cases hc : lp2 = p.pid
    · subst hc
      rw [setHostPidFirst_cons_eq _ _ _ _ rfl]
      unfold findPid
      rw [List.find?_cons, List.find?_cons,
        show (decide (p.pid = lp)) = false from by simp; exact hne]
    · rw [setHostPidFirst_cons_ne _ _ _ _ (by simpa using hc)]
      unfold findPid
      rw [List.find?_cons, List.find?_cons]
      cases hd : decide (p.pid = lp)
      · exact ih
      · rfl

/-- Effect of one host record on the process a container's `find?` returns
for a given local PID: the record either leaves it unchanged, or — exactly
when the record's namespace maps to this container and its derived local
PID is the one sought — overwrites its `host_pid` with the record's
PID. -/
theorem applyHostRecord_findPid (m : List (String × Nat)) (i : Nat) (lp : Int)
    (cs : List GpuContainer) (c : GpuContainer) (q : ContainerProcess) (r : HostRecord)
    (hc : cs[i]? = some c) (hf : findPid lp c.processes = some q) :
    ∃ c2 q2, (applyHostRecord m cs r)[i]? = some c2 ∧ findPid lp c2.processes = some q2 ∧
      (q2 = q ∨ (dictGet m r.pid_ns = some i ∧ r.pid_in_container = some lp ∧
        q2 = { q with host_pid := some r.pid })) ∧
      (dictGet m r.pid_ns = some i → r.pid_in_container = some lp →
        q2 = { q with host_pid := some r.pid }) := by
  unfold applyHostRecord
  cases hd : dictGet m r.pid_ns with
  | none => exact ⟨c, q, hc, hf, Or.inl rfl, fun h1 => absurd h1 (by simp)⟩
  | some j =>
    dsimp only
    cases hcj : cs[j]? with
    | none =>
      refine ⟨c, q, hc, hf, Or.inl rfl, fun h1 h2 => ?_⟩
      injection h1 with h1
      subst h1
      rw [hc] at hcj
      exact absurd hcj (by simp)
    | some cj =>
      dsimp only
      by_cases hij : j = i
      · subst hij
        rw [hc] at hcj
        injection hcj with hcj
        subst hcj
        have hlen : j < cs.length := lt_of_getElem?' hc
        cases hpic : r.pid_in_container with
        | none =>
          refine ⟨_, q, getElem?_set_self' cs j _ hlen, ?_, Or.inl rfl,
            fun _ h2 => absurd h2 (by simp)⟩
          show findPid lp (setHostPidFirst none r.pid c.processes) = some q
          rw [setHostPidFirst_none]
          exact hf
        | some lp2 =>
          by_cases hlp : lp2 = lp
          · refine ⟨_, { q with host_pid := some r.pid },
              getElem?_set_self' cs j _ hlen, ?_, Or.inr ⟨rfl, by rw [hlp], rfl⟩,
              fun _ _ => rfl⟩
            show findPid lp (setHostPidFirst (some lp2) r.pid c.processes) =
              some { q with host_pid := some r.pid }
            rw [hlp, findPid_setHostPidFirst_eq, hf]
            rfl
          · refine ⟨_, q, getElem?_set_self' cs j _ hlen, ?_, Or.inl rfl, fun _ h2 => ?_⟩
            · show findPid lp (setHostPidFirst (some lp2) r.pid c.processes) = some q
              rw [findPid_setHostPidFirst_ne _ _ _ _ hlp]
              exact hf
            · injection h2 with h2
              exact absurd h2 hlp
      · refine ⟨c, q, ?_, hf, Or.inl rfl, fun h1 _ => ?_⟩
        · rw [getElem?_set_ne' cs j i _ (fun hh => hij hh.symm)]
          exact hc
        · injection h1 with h1
          exact absurd h1 hij

/-- Once the sought process carries the host PID value, later records all
mapping to the same assignment preserve it. -/
theorem correlate_preserve (m : List (String × Nat)) (i : Nat) (lp hval : Int)
    (records : List HostRecord) :
    ∀ (cs : List GpuContainer) (c : GpuContainer) (q : ContainerProcess),
    cs[i]? = some c → findPid lp c.processes = some q → q.host_pid = some hval →
    (∀ r ∈ records, dictGet m r.pid_ns = some i → r.pid_in_container = some lp →
      r.pid = hval) →
    ∃ c2 q2, (correlate m records cs)[i]? = some c2 ∧
      findPid lp c2.processes = some q2 ∧ q2.host_pid = some hval := by
  induction records with
  | nil => intro cs c q hc hf hq _; exact ⟨c, q, hc, hf, hq⟩
  | cons r rest ih =>
    intro cs c q hc hf hq hall
    obtain ⟨c2, q2, hc2, hf2, hd2, _⟩ := applyHostRecord_findPid m i lp cs c q r hc hf
    have hq2 : q2.host_pid = some hval := by
      rcases hd2 with h1 | ⟨hdi, hpi, h1⟩
      · rw [h1]; exact hq
      · rw [h1]
        have h3 := hall r (List.mem_cons_self _ _) hdi hpi
        simp [h3]
    exact ih (applyHostRecord m cs r) c2 q2 hc2 hf2 hq2
      (fun r2 h2 => hall r2 (List.mem_cons_of_mem _ h2))

/-- Main lemma for the second pass: a record whose namespace is bound to
container `i` and whose derived local PID occurs among that container's
processes makes the pass set that process's host PID to the record's
PID. -/
theorem correlate_assigns (m : List (String × Nat)) (i : Nat) (lp : Int)
    (records : List HostRecord) :
    ∀ (cs : List GpuContainer) (c : GpuContainer) (q : ContainerProcess) (r : HostRecord),
    r ∈ records → dictGet m r.pid_ns = some i → r.pid_in_container = some lp →
    cs[i]? = some c → findPid lp c.processes = some q →
    (∀ r2 ∈ records, dictGet m r2.pid_ns = some i → r2.pid_in_container = some lp →
      r2.pid = r.pid) →
    ∃ c2 q2, (correlate m records cs)[i]? = some c2 ∧
      findPid lp c2.processes = some q2 ∧ q2.host_pid = some r.pid := by
  induction records with
  | nil => intro cs c q r hr; simp at hr
  | cons r0 rest ih =>
    intro cs c q r hr hdi hpi hc hf hall
    by_cases hmem : r ∈ rest
    · obtain ⟨c2, q2, hc2, hf2, _, _⟩ := applyHostRecord_findPid m i lp cs c q r0 hc hf
      exact ih (applyHostRecord m cs r0) c2 q2 r hmem hdi hpi hc2 hf2
        (fun r2 h2 hd2 hp2 => hall r2 (List.mem_cons_of_mem _ h2) hd2 hp2)
    · have hr0 : r = r0 := by
        rcases List.mem_cons.mp hr with h1 | h1
        · exact h1
        · exact absurd h1 hmem
      subst hr0
      obtain ⟨c2, q2, hc2, hf2, _, himp⟩ := applyHostRecord_findPid m i lp cs c q r hc hf
      have hq2 : q2 = { q with host_pid := some r.pid } := himp hdi hpi
      exact correlate_preserve m i lp r.pid rest (applyHostRecord m cs r) c2 q2 hc2 hf2
        (by rw [hq2])
        (fun r2 h2 hd2 hp2 => hall r2 (List.mem_cons_of_mem _ h2) hd2 hp2)

/-- A container whose position is in the range of no namespace binding is
never touched by the second pass. -/
theorem correlate_untouched (m : List (String × Nat)) (i : Nat)
    (records : List HostRecord) :
    ∀ cs : List GpuContainer, (∀ kv ∈ m, kv.2 ≠ i) →
    (correlate m records cs)[i]? = cs[i]? := by
  induction records with
  | nil => intro cs _; rfl
  | cons r rest ih =>
    intro cs hm
    rw [show correlate m (r :: rest) cs = correlate m rest (applyHostRecord m cs r) from rfl,
      ih _ hm]
    unfold applyHostRecord
    cases hd : dictGet m r.pid_ns with
    | none => rfl
    | some j =>
      dsimp only
      cases hcj : cs[j]? with
      | none => rfl
      | some cj =>
        dsimp only
        have hji : j ≠ i := hm _ (dictGet_mem hd)
        exact getElem?_set_ne' cs j i _ (fun hh => hji hh.symm)

/-- C1: for every host process record whose PID namespace is bound to a
GpuContainer in `pid_ns_to_container_map` and whose derived container-local
PID (second NSpid entry) matches a process of that container, the second
pass sets that process's `host_pid` to the record's host PID (hypotheses:
the container actually holds such a process, and all records naming the
same container and local PID agree on the host PID — in a real namespace a
local PID has one host PID); and a container bound to no namespace is left
entirely unchanged, so its processes never receive a `host_pid`. -/
theorem c1_correlator_assigns_host_pids :
    (∀ (nsMap : List (String × Nat)) (records : List HostRecord) (cs : List GpuContainer)
      (r : HostRecord) (i : Nat) (c : GpuContainer) (q : ContainerProcess) (lp : Int),
      r ∈ records → dictGet nsMap r.pid_ns = some i → r.pid_in_container = some lp →
      cs[i]? = some c → findPid lp c.processes = some q →
      (∀ r2 ∈ records, dictGet nsMap r2.pid_ns = some i →
        r2.pid_in_container = some lp → r2.pid = r.pid) →
      ∃ c2 q2, (correlate nsMap records cs)[i]? = some c2 ∧
        findPid lp c2.processes = some q2 ∧ q2.host_pid = some r.pid) ∧
    (∀ (nsMap : List (String × Nat)) (records : List HostRecord) (cs : List GpuContainer)
      (i : Nat), (∀ kv ∈ nsMap, kv.2 ≠ i) →
      (correlate nsMap records cs)[i]? = cs[i]?) := by
  constructor
  · intro nsMap records cs r i c q lp h1 h2 h3 h4 h5 h6
    exact correlate_assigns nsMap i lp records cs c q r h1 h2 h3 h4 h5 h6
  · intro nsMap records cs i h
    exact correlate_untouched nsMap i records cs h

/-- C1 witness: one record in namespace `a` (bound to container 0) with
derived local PID 7 gives that container's process 7 the host PID 34,
while a second container bound to no namespace stays untouched. -/
theorem c1_witness :
    (∃ c2 q2,
      (correlate [("a", 0)] [HostRecord.mk 34 "a" (some 7) "x"]
        [GpuContainer.mk "p" "n" "c" "d" []
          [ContainerProcess.mk 7 "y" none none none none] none])[0]? = some c2 ∧
      findPid 7 c2.processes = some q2 ∧ q2.host_pid = some 34) ∧
    (correlate [("a", 0)] [HostRecord.mk 34 "a" (some 7) "x"]
      [GpuContainer.mk "p" "n" "c" "d" []
        [ContainerProcess.mk 7 "y" none none none none] none,
       GpuContainer.mk "p2" "n2" "c2" "d2" []
        [ContainerProcess.mk 7 "z" none none none none] none])[1]? =
      [GpuContainer.mk "p" "n" "c" "d" []
        [ContainerProcess.mk 7 "y" none none none none] none,
       GpuContainer.mk "p2" "n2" "c2" "d2" []
        [ContainerProcess.mk 7 "z" none none none none] none][1]? := by
  constructor
  · exact c1_correlator_assigns_host_pids.1 [("a", 0)] [HostRecord.mk 34 "a" (some 7) "x"]
      [GpuContainer.mk "p" "n" "c" "d" []
        [ContainerProcess.mk 7 "y" none none none none] none]
      (HostRecord.mk 34 "a" (some 7) "x") 0
      (GpuContainer.mk "p" "n" "c" "d" []
        [ContainerProcess.mk 7 "y" none none none none] none)
      (ContainerProcess.mk 7 "y" none none none none) 7
      (List.mem_cons_self _ _) (by rfl) rfl (by rfl) (by rfl) (by decide)
  · exact c1_correlator_assigns_host_pids.2 [("a", 0)] [HostRecord.mk 34 "a" (some 7) "x"]
      [GpuContainer.mk "p" "n" "c" "d" []
        [ContainerProcess.mk 7 "y" none none none none] none,
       GpuContainer.mk "p2" "n2" "c2" "d2" []
        [ContainerProcess.mk 7 "z" none none none none] none] 1 (by decide)
